import Mathlib

/-!
Verification development for the zfs-rs snapshot-replication toolkit.

The Rust sources are shallowly embedded:

* `Snap`, `Snap.pcmp` model `struct Snap` and its `PartialOrd` implementation
  (`src/dataset.rs`); `creation` (a second-precision UTC instant) is embedded
  as seconds since the Unix epoch, `guid` (u64) and `holds` (u32) as `Nat`,
  and `name` as `List Char`.
* `Dataset.commGo` / `Dataset.comm` model `Dataset::comm`; the Rust function
  pushes onto a result vector inside a loop, so the embedding threads the
  accumulated vector (`acc`) and the latest most-recent-common index (`r2`)
  through the recursion.  A panicking execution is modelled as `none`.
* `find_mrcud`, the parser (`parse_spec`, `Dataset.fromStr`), the retention
  criterion, the progress renderer and the replication orchestrator follow,
  each translated from the corresponding Rust item.
-/

namespace ZfsRs

/-- Models `struct Snap` of `src/dataset.rs`.  `creation` is the UTC creation
instant in whole seconds since the Unix epoch (`DateTime<Utc>` with second
precision). -/
structure Snap where
  guid : Nat
  name : List Char
  creation : Int
  holds : Nat
deriving DecidableEq, Repr

/-- Models `impl PartialOrd for Snap` (`Snap::partial_cmp`): equality is guid
equality (`impl PartialEq for Snap` compares guids alone); otherwise the
creation instants are compared, and two snaps with distinct guids but equal
creations are incomparable (`None`). -/
def Snap.pcmp (a b : Snap) : Option Ordering :=
  if a.guid = b.guid then some .eq
  else if a.creation < b.creation then some .lt
  else if b.creation < a.creation then some .gt
  else none

/-- Models `enum Comm` of `src/dataset.rs`. -/
inductive Comm where
  | LEFT
  | BOTH
  | RIGHT
deriving DecidableEq, Repr

/-- Models the loop of `Dataset::comm`: `acc` is the vector built so far
(`retval`), `r2` the last recorded most-recent-common index (`retval2`).
`none` models the `panic!` taken when two heads are incomparable. -/
def commGo (xs ys : List Snap) (acc : List (Comm × Snap)) (r2 : Option Nat) :
    Option (List (Comm × Snap) × Option Nat) :=
  match xs, ys with
  | [], ys => some (acc ++ ys.map (fun s => (Comm.RIGHT, s)), r2)
  | xs, [] => some (acc ++ xs.map (fun s => (Comm.LEFT, s)), r2)
  | x :: xs', y :: ys' =>
    match Snap.pcmp x y with
    | some .lt => commGo xs' (y :: ys') (acc ++ [(Comm.LEFT, x)]) r2
    | some .eq => commGo xs' ys' (acc ++ [(Comm.BOTH, x)]) (some acc.length)
    | some .gt => commGo (x :: xs') ys' (acc ++ [(Comm.RIGHT, y)]) r2
    | none => none
termination_by xs.length + ys.length
decreasing_by all_goals simp [List.length_cons] <;> omega

/-- Models `Dataset::comm` (`src/dataset.rs`): walk two time-ordered snapshot
vectors, return the tagged merge plus the index of the most recent common
snapshot; `none` models the `panic!` on incomparable snapshots. -/
def comm (xs ys : List Snap) : Option (List (Comm × Snap) × Option Nat) :=
  commGo xs ys [] none

/-- The accumulator and the carried index of `commGo` are just shifted onto
the result of the accumulator-free call. -/
lemma commGo_shift (n : Nat) :
    ∀ xs ys : List Snap, ∀ acc r2, xs.length + ys.length = n →
    commGo xs ys acc r2 =
      (commGo xs ys [] none).map
        (fun p => (acc ++ p.1,
          match p.2 with
          | some i => some (acc.length + i)
          | none => r2)) := by
  induction n using Nat.strong_induction_on with
  | _ n ih =>
    intro xs ys acc r2 hn
    match xs, ys with
    | [], ys => simp [commGo]
    | x :: xs', [] => simp [commGo]
    | x :: xs', y :: ys' =>
      rw [commGo, commGo]
      cases hc : Snap.pcmp x y with
      | none => simp
      | some ord =>
        cases ord with
        | lt =>
          simp only [List.nil_append, List.length_nil]
          rw [ih (xs'.length + (y :: ys').length) (by simp at hn ⊢; omega) xs' (y :: ys')
                (acc ++ [(Comm.LEFT, x)]) r2 rfl,
              ih (xs'.length + (y :: ys').length) (by simp at hn ⊢; omega) xs' (y :: ys')
                [(Comm.LEFT, x)] none rfl]
          cases commGo xs' (y :: ys') [] none with
          | none => simp
          | some p =>
            cases hp : p.2 with
            | none => simp [Option.map_map, Function.comp, hp]
            | some i => simp [Option.map_map, Function.comp, hp]; omega
        | eq =>
          simp only [List.nil_append, List.length_nil]
          rw [ih (xs'.length + ys'.length) (by simp at hn ⊢; omega) xs' ys'
                (acc ++ [(Comm.BOTH, x)]) (some acc.length) rfl,
              ih (xs'.length + ys'.length) (by simp at hn ⊢; omega) xs' ys'
                [(Comm.BOTH, x)] (some 0) rfl]
          cases commGo xs' ys' [] none with
          | none => simp
          | some p =>
            cases hp : p.2 with
            | none => simp [Option.map_map, Function.comp, hp]
            | some i => simp [Option.map_map, Function.comp, hp]; omega
        | gt =>
          simp only [List.nil_append, List.length_nil]
          rw [ih ((x :: xs').length + ys'.length) (by simp at hn ⊢; omega) (x :: xs') ys'
                (acc ++ [(Comm.RIGHT, y)]) r2 rfl,
              ih ((x :: xs').length + ys'.length) (by simp at hn ⊢; omega) (x :: xs') ys'
                [(Comm.RIGHT, y)] none rfl]
          cases commGo (x :: xs') ys' [] none with
          | none => simp
          | some p =>
            cases hp : p.2 with
            | none => simp [Option.map_map, Function.comp, hp]
            | some i => simp [Option.map_map, Function.comp, hp]; omega

lemma comm_nil_left (ys : List Snap) :
    comm [] ys = some (ys.map (fun s => (Comm.RIGHT, s)), none) := by
  rw [comm, commGo]; simp

lemma comm_nil_right (xs : List Snap) :
    comm xs [] = some (xs.map (fun s => (Comm.LEFT, s)), none) := by
  cases xs <;> rw [comm, commGo] <;> simp

lemma comm_cons_lt {x y : Snap} (xs ys : List Snap) (h : Snap.pcmp x y = some .lt) :
    comm (x :: xs) (y :: ys) =
      (comm xs (y :: ys)).map (fun p => ((Comm.LEFT, x) :: p.1, p.2.map (· + 1))) := by
  rw [comm, commGo]
  simp only [h, List.nil_append, List.length_nil]
  rw [commGo_shift (xs.length + (y :: ys).length) xs (y :: ys) [(Comm.LEFT, x)] none rfl]
  rw [comm]
  cases commGo xs (y :: ys) [] none with
  | none => simp
  | some p =>
    cases hp : p.2 with
    | none => simp [hp]
    | some i => simp [hp]; omega

lemma comm_cons_eq {x y : Snap} (xs ys : List Snap) (h : Snap.pcmp x y = some .eq) :
    comm (x :: xs) (y :: ys) =
      (comm xs ys).map (fun p => ((Comm.BOTH, x) :: p.1, some (p.2.elim 0 (· + 1)))) := by
  rw [comm, commGo]
  simp only [h, List.nil_append, List.length_nil]
  rw [commGo_shift (xs.length + ys.length) xs ys [(Comm.BOTH, x)] (some 0) rfl]
  rw [comm]
  cases commGo xs ys [] none with
  | none => simp
  | some p =>
    cases hp : p.2 with
    | none => simp [hp]
    | some i => simp [hp]; omega

lemma comm_cons_gt {x y : Snap} (xs ys : List Snap) (h : Snap.pcmp x y = some .gt) :
    comm (x :: xs) (y :: ys) =
      (comm (x :: xs) ys).map (fun p => ((Comm.RIGHT, y) :: p.1, p.2.map (· + 1))) := by
  rw [comm, commGo]
  simp only [h, List.nil_append, List.length_nil]
  rw [commGo_shift ((x :: xs).length + ys.length) (x :: xs) ys [(Comm.RIGHT, y)] none rfl]
  rw [comm]
  cases commGo (x :: xs) ys [] none with
  | none => simp
  | some p =>
    cases hp : p.2 with
    | none => simp [hp]
    | some i => simp [hp]; omega

lemma comm_cons_none {x y : Snap} (xs ys : List Snap) (h : Snap.pcmp x y = none) :
    comm (x :: xs) (y :: ys) = none := by
  rw [comm, commGo]
  simp only [h]

/-- Snapshot vectors are kept ordered by creation time, oldest first
(field invariant of `Dataset::snaps`); strictly, since equal creations are
outside the engine's precondition. -/
def sortedStrict (l : List Snap) : Prop :=
  l.Pairwise (fun a b => a.creation < b.creation)

/-- Cross-pair well-formedness: between the two vectors, two snapshots carry
the same guid exactly when they carry the same creation instant.  This is the
precondition under which `Dataset::comm` is documented to operate (`src/dataset.rs`
doc comments and the `PartialOrd` caveat): the same snapshot (same guid) has
one creation time, and distinct snapshots never share a creation time. -/
def aligned (A B : List Snap) : Prop :=
  ∀ a ∈ A, ∀ b ∈ B, (a.guid = b.guid ↔ a.creation = b.creation)

instance (l : List Snap) : Decidable (sortedStrict l) := by
  unfold sortedStrict; infer_instance

instance (A B : List Snap) : Decidable (aligned A B) := by
  unfold aligned; infer_instance

/-- Number of elements of `A` whose guid also occurs in `B` — the size of the
intersection "by guid" when guids within `A` are distinct. -/
def interCount (A B : List Snap) : Nat :=
  (A.filter (fun a => B.any (fun b => a.guid == b.guid))).length

/-- Snapshots of the merge tagged LEFT or BOTH; their references are drawn
from the `self` side of `Dataset::comm`. -/
def leftProj (out : List (Comm × Snap)) : List Snap :=
  (out.filter (fun p => p.1 != Comm.RIGHT)).map Prod.snd

/-- Snapshots of the merge tagged RIGHT or BOTH. -/
def rightProj (out : List (Comm × Snap)) : List Snap :=
  (out.filter (fun p => p.1 != Comm.LEFT)).map Prod.snd

lemma pcmp_eq_guid {a b : Snap} (h : Snap.pcmp a b = some .eq) : a.guid = b.guid := by
  by_cases hg : a.guid = b.guid
  · exact hg
  · exfalso
    simp only [Snap.pcmp, hg, if_false] at h
    split_ifs at h <;> simp_all

lemma leftProj_nil : leftProj [] = [] := rfl

lemma rightProj_nil : rightProj [] = [] := rfl

lemma leftProj_mapRight (B : List Snap) :
    leftProj (B.map (fun s => (Comm.RIGHT, s))) = [] := by
  induction B with
  | nil => rfl
  | cons b bs ih => simp_all [leftProj]

lemma rightProj_mapRight (B : List Snap) :
    rightProj (B.map (fun s => (Comm.RIGHT, s))) = B := by
  induction B with
  | nil => rfl
  | cons b bs ih => simp_all [rightProj]

lemma leftProj_mapLeft (A : List Snap) :
    leftProj (A.map (fun s => (Comm.LEFT, s))) = A := by
  induction A with
  | nil => rfl
  | cons a as ih => simp_all [leftProj]

lemma rightProj_mapLeft (A : List Snap) :
    rightProj (A.map (fun s => (Comm.LEFT, s))) = [] := by
  induction A with
  | nil => rfl
  | cons a as ih => simp_all [rightProj]

lemma leftProj_cons_left (x : Snap) (out : List (Comm × Snap)) :
    leftProj ((Comm.LEFT, x) :: out) = x :: leftProj out := by simp [leftProj]

lemma leftProj_cons_both (x : Snap) (out : List (Comm × Snap)) :
    leftProj ((Comm.BOTH, x) :: out) = x :: leftProj out := by simp [leftProj]

lemma leftProj_cons_right (x : Snap) (out : List (Comm × Snap)) :
    leftProj ((Comm.RIGHT, x) :: out) = leftProj out := by simp [leftProj]

lemma rightProj_cons_left (x : Snap) (out : List (Comm × Snap)) :
    rightProj ((Comm.LEFT, x) :: out) = rightProj out := by simp [rightProj]

lemma rightProj_cons_both (x : Snap) (out : List (Comm × Snap)) :
    rightProj ((Comm.BOTH, x) :: out) = x :: rightProj out := by simp [rightProj]

lemma rightProj_cons_right (x : Snap) (out : List (Comm × Snap)) :
    rightProj ((Comm.RIGHT, x) :: out) = x :: rightProj out := by simp [rightProj]

/-- Structural property of the merge: the LEFT/BOTH subsequence is exactly the
left input (references drawn from `self`), and the RIGHT/BOTH subsequence
matches the right input guid for guid. -/
lemma comm_proj (n : Nat) :
    ∀ A B : List Snap, ∀ out idx, A.length + B.length = n →
    comm A B = some (out, idx) →
    leftProj out = A ∧ (rightProj out).map Snap.guid = B.map Snap.guid := by
  induction n using Nat.strong_induction_on with
  | _ n ih =>
    intro A B out idx hn h
    match A, B with
    | [], B =>
      rw [comm_nil_left] at h
      simp only [Option.some.injEq, Prod.mk.injEq] at h
      obtain ⟨rfl, rfl⟩ := h
      simp [leftProj_mapRight, rightProj_mapRight]
    | a :: as, [] =>
      rw [comm_nil_right] at h
      simp only [Option.some.injEq, Prod.mk.injEq] at h
      obtain ⟨rfl, rfl⟩ := h
      simp [leftProj_cons_left, leftProj_mapLeft, rightProj_cons_left, rightProj_mapLeft]
    | a :: as, b :: bs =>
      cases hc : Snap.pcmp a b with
      | none => rw [comm_cons_none as bs hc] at h; exact absurd h (by simp)
      | some ord =>
        cases ord with
        | lt =>
          rw [comm_cons_lt as bs hc] at h
          rw [Option.map_eq_some'] at h
          obtain ⟨⟨out', idx'⟩, hcm, heq⟩ := h
          simp only [Prod.mk.injEq] at heq
          obtain ⟨rfl, rfl⟩ := heq
          obtain ⟨h1, h2⟩ :=
            ih (as.length + (b :: bs).length) (by simp at hn ⊢; omega)
              as (b :: bs) out' idx' rfl hcm
          refine ⟨?_, ?_⟩
          · rw [leftProj_cons_left, h1]
          · rw [rightProj_cons_left, h2]
        | eq =>
          rw [comm_cons_eq as bs hc] at h
          rw [Option.map_eq_some'] at h
          obtain ⟨⟨out', idx'⟩, hcm, heq⟩ := h
          simp only [Prod.mk.injEq] at heq
          obtain ⟨rfl, rfl⟩ := heq
          obtain ⟨h1, h2⟩ :=
            ih (as.length + bs.length) (by simp at hn ⊢; omega)
              as bs out' idx' rfl hcm
          refine ⟨?_, ?_⟩
          · rw [leftProj_cons_both, h1]
          · rw [rightProj_cons_both]
            simp only [List.map_cons, h2, pcmp_eq_guid hc]
        | gt =>
          rw [comm_cons_gt as bs hc] at h
          rw [Option.map_eq_some'] at h
          obtain ⟨⟨out', idx'⟩, hcm, heq⟩ := h
          simp only [Prod.mk.injEq] at heq
          obtain ⟨rfl, rfl⟩ := heq
          obtain ⟨h1, h2⟩ :=
            ih ((a :: as).length + bs.length) (by simp at hn ⊢; omega)
              (a :: as) bs out' idx' rfl hcm
          refine ⟨?_, ?_⟩
          · rw [leftProj_cons_right, h1]
          · rw [rightProj_cons_right]
            simp only [List.map_cons, h2]

/-- On well-formed inputs the merge never panics, and its length satisfies
`|out| = |A| + |B| − |A ∩ B|` (stated additively). -/
lemma comm_total (n : Nat) :
    ∀ A B : List Snap, A.length + B.length = n →
    sortedStrict A → sortedStrict B → aligned A B →
    ∃ out idx, comm A B = some (out, idx) ∧
      out.length + interCount A B = A.length + B.length := by
  induction n using Nat.strong_induction_on with
  | _ n ih =>
    intro A B hn hA hB hal
    match A, B with
    | [], B =>
      refine ⟨_, _, comm_nil_left B, ?_⟩
      simp [interCount]
    | a :: as, [] =>
      refine ⟨_, _, comm_nil_right (a :: as), ?_⟩
      simp [interCount]
    | a :: as, b :: bs =>
      have haas : ∀ a' ∈ as, a.creation < a'.creation := (List.pairwise_cons.mp hA).1
      have hbbs : ∀ b' ∈ bs, b.creation < b'.creation := (List.pairwise_cons.mp hB).1
      have hA' : sortedStrict as := (List.pairwise_cons.mp hA).2
      have hB' : sortedStrict bs := (List.pairwise_cons.mp hB).2
      by_cases hg : a.guid = b.guid
      · have hcr : a.creation = b.creation := (hal a (by simp) b (by simp)).mp hg
        have hc : Snap.pcmp a b = some .eq := by simp [Snap.pcmp, hg]
        have hal' : aligned as bs := fun x hx y hy =>
          hal x (by simp [hx]) y (by simp [hy])
        obtain ⟨out', idx', hcm, hlen⟩ :=
          ih (as.length + bs.length) (by simp at hn ⊢; omega) as bs rfl hA' hB' hal'
        refine ⟨(Comm.BOTH, a) :: out', some (idx'.elim 0 (· + 1)), ?_, ?_⟩
        · rw [comm_cons_eq as bs hc, hcm]; rfl
        · have hint : interCount (a :: as) (b :: bs) = 1 + interCount as bs := by
            have hpa : (b :: bs).any (fun y => a.guid == y.guid) = true := by
              simp [hg]
            have hcongr : ∀ x ∈ as,
                ((b :: bs).any (fun y => x.guid == y.guid)) =
                  (bs.any (fun y => x.guid == y.guid)) := by
              intro x hx
              have hxb : x.guid ≠ b.guid := by
                intro hxg
                have := (hal x (by simp [hx]) b (by simp)).mp hxg
                have := haas x hx
                omega
              simp [List.any_cons, hxb]
            simp only [interCount, List.filter_cons, hpa, if_true, List.length_cons]
            rw [List.filter_congr hcongr]
            omega
          simp only [List.length_cons] at hlen ⊢
          rw [hint]
          omega
      · rcases lt_trichotomy a.creation b.creation with hlt | heq | hgt
        · have hc : Snap.pcmp a b = some .lt := by simp [Snap.pcmp, hg, hlt]
          have hal' : aligned as (b :: bs) := fun x hx y hy =>
            hal x (by simp [hx]) y hy
          obtain ⟨out', idx', hcm, hlen⟩ :=
            ih (as.length + (b :: bs).length) (by simp at hn ⊢; omega)
              as (b :: bs) rfl hA' hB hal'
          refine ⟨(Comm.LEFT, a) :: out', idx'.map (· + 1), ?_, ?_⟩
          · rw [comm_cons_lt as bs hc, hcm]; rfl
          · have hpa : (b :: bs).any (fun y => a.guid == y.guid) = false := by
              rw [List.any_eq_false]
              intro y hy
              simp only [beq_iff_eq]
              intro hxy
              have hcy : a.creation = y.creation := (hal a (by simp) y hy).mp hxy
              have : a.creation < y.creation := by
                rcases List.mem_cons.mp hy with rfl | hy'
                · exact hlt
                · exact lt_trans hlt (hbbs y hy')
              omega
            have hint : interCount (a :: as) (b :: bs) = interCount as (b :: bs) := by
              simp only [interCount, List.filter_cons, hpa]
              simp
            simp only [List.length_cons] at hlen ⊢
            rw [hint]
            simp only [interCount, List.length_cons] at hlen ⊢
            omega
        · exact absurd ((hal a (by simp) b (by simp)).mpr heq) hg
        · have hc : Snap.pcmp a b = some .gt := by
            simp [Snap.pcmp, hg, hgt, not_lt_of_gt hgt]
          have hal' : aligned (a :: as) bs := fun x hx y hy =>
            hal x hx y (by simp [hy])
          obtain ⟨out', idx', hcm, hlen⟩ :=
            ih ((a :: as).length + bs.length) (by simp at hn ⊢; omega)
              (a :: as) bs rfl hA hB' hal'
          refine ⟨(Comm.RIGHT, b) :: out', idx'.map (· + 1), ?_, ?_⟩
          · rw [comm_cons_gt as bs hc, hcm]; rfl
          · have hcongr : ∀ x ∈ a :: as,
                ((b :: bs).any (fun y => x.guid == y.guid)) =
                  (bs.any (fun y => x.guid == y.guid)) := by
              intro x hx
              have hxb : x.guid ≠ b.guid := by
                intro hxg
                have hxc := (hal x hx b (by simp)).mp hxg
                rcases List.mem_cons.mp hx with rfl | hx'
                · omega
                · have := haas x hx'
                  omega
              simp [List.any_cons, hxb]
            have hint : interCount (a :: as) (b :: bs) = interCount (a :: as) bs := by
              simp only [interCount]
              rw [List.filter_congr hcongr]
            simp only [List.length_cons] at hlen ⊢
            rw [hint]
            simp only [interCount, List.length_cons] at hlen ⊢
            omega

/-- Structural property of the merge's second return value: when it is `none`
no BOTH element was emitted; when it is `some i`, position `i` holds a BOTH
element and no BOTH element occurs after it (it is the most recent common
snapshot). -/
lemma comm_idx (n : Nat) :
    ∀ A B : List Snap, ∀ out idx, A.length + B.length = n →
    comm A B = some (out, idx) →
    (idx = none → ∀ p ∈ out, p.1 ≠ Comm.BOTH) ∧
    (∀ i, idx = some i → ∃ s, out[i]? = some (Comm.BOTH, s) ∧
      ∀ j p, i < j → out[j]? = some p → p.1 ≠ Comm.BOTH) := by
  induction n using Nat.strong_induction_on with
  | _ n ih =>
    intro A B out idx hn h
    match A, B with
    | [], B =>
      rw [comm_nil_left] at h
      simp only [Option.some.injEq, Prod.mk.injEq] at h
      obtain ⟨rfl, rfl⟩ := h
      refine ⟨fun _ p hp => ?_, fun i hi => by simp at hi⟩
      obtain ⟨s, _, rfl⟩ := List.mem_map.mp hp
      simp
    | a :: as, [] =>
      rw [comm_nil_right] at h
      simp only [Option.some.injEq, Prod.mk.injEq] at h
      obtain ⟨rfl, rfl⟩ := h
      refine ⟨fun _ p hp => ?_, fun i hi => by simp at hi⟩
      obtain ⟨s, _, rfl⟩ := List.mem_map.mp hp
      simp
    | a :: as, b :: bs =>
      cases hc : Snap.pcmp a b with
      | none => rw [comm_cons_none as bs hc] at h; exact absurd h (by simp)
      | some ord =>
        cases ord with
        | lt =>
          rw [comm_cons_lt as bs hc, Option.map_eq_some'] at h
          obtain ⟨⟨out', idx'⟩, hcm, heq⟩ := h
          simp only [Prod.mk.injEq] at heq
          obtain ⟨rfl, rfl⟩ := heq
          obtain ⟨h1, h2⟩ :=
            ih (as.length + (b :: bs).length) (by simp at hn ⊢; omega)
              as (b :: bs) out' idx' rfl hcm
          constructor
          · intro hnone p hp
            have hidx : idx' = none := by
              cases idx' <;> simp_all
            rcases List.mem_cons.mp hp with rfl | hp'
            · simp
            · exact h1 hidx p hp'
          · intro i hi
            cases idx' with
            | none => simp at hi
            | some i' =>
              simp only [Option.map_some'] at hi
              injection hi with hi
              subst hi
              obtain ⟨s, hs, hafter⟩ := h2 i' rfl
              refine ⟨s, by simpa using hs, ?_⟩
              intro j p hij hj
              cases j with
              | zero => omega
              | succ j' =>
                rw [List.getElem?_cons_succ] at hj
                exact hafter j' p (by omega) hj
        | eq =>
          rw [comm_cons_eq as bs hc, Option.map_eq_some'] at h
          obtain ⟨⟨out', idx'⟩, hcm, heq⟩ := h
          simp only [Prod.mk.injEq] at heq
          obtain ⟨rfl, rfl⟩ := heq
          obtain ⟨h1, h2⟩ :=
            ih (as.length + bs.length) (by simp at hn ⊢; omega)
              as bs out' idx' rfl hcm
          constructor
          · intro hnone; simp at hnone
          · intro i hi
            simp only [Option.some.injEq] at hi
            subst hi
            cases idx' with
            | none =>
              refine ⟨a, by simp, ?_⟩
              intro j p hij hj
              cases j with
              | zero => omega
              | succ j' =>
                rw [List.getElem?_cons_succ] at hj
                exact h1 rfl p (List.getElem?_mem hj)
            | some i' =>
              obtain ⟨s, hs, hafter⟩ := h2 i' rfl
              refine ⟨s, by simpa using hs, ?_⟩
              intro j p hij hj
              cases j with
              | zero => simp at hij
              | succ j' =>
                rw [List.getElem?_cons_succ] at hj
                exact hafter j' p (by simp at hij; omega) hj
        | gt =>
          rw [comm_cons_gt as bs hc, Option.map_eq_some'] at h
          obtain ⟨⟨out', idx'⟩, hcm, heq⟩ := h
          simp only [Prod.mk.injEq] at heq
          obtain ⟨rfl, rfl⟩ := heq
          obtain ⟨h1, h2⟩ :=
            ih ((a :: as).length + bs.length) (by simp at hn ⊢; omega)
              (a :: as) bs out' idx' rfl hcm
          constructor
          · intro hnone p hp
            have hidx : idx' = none := by
              cases idx' <;> simp_all
            rcases List.mem_cons.mp hp with rfl | hp'
            · simp
            · exact h1 hidx p hp'
          · intro i hi
            cases idx' with
            | none => simp at hi
            | some i' =>
              simp only [Option.map_some'] at hi
              injection hi with hi
              subst hi
              obtain ⟨s, hs, hafter⟩ := h2 i' rfl
              refine ⟨s, by simpa using hs, ?_⟩
              intro j p hij hj
              cases j with
              | zero => omega
              | succ j' =>
                rw [List.getElem?_cons_succ] at hj
                exact hafter j' p (by omega) hj

/-- Models `enum MRCUD` of `src/dataset.rs`; the borrowed `&Snap` is embedded
by value. -/
inductive MRCUD where
  | NoneInCommon
  | UpToDate (s : Snap)
  | Divergence (s : Snap)
  | DestinationHasMore (s : Snap)
  | SourceHasMore (s : Snap)
deriving DecidableEq, Repr

/-- Models the tail-scanning loop of `find_mrcud` (`src/dataset.rs` lines
75-87): walk the merge after the most recent common index, setting
`source_has_more` on LEFT and `destination_has_more` on RIGHT, breaking early
once both are set; a BOTH element hits `unreachable!` (modelled as `none`). -/
def scanTail : List (Comm × Snap) → Bool → Bool → Option (Bool × Bool)
  | [], s, d => some (s, d)
  | (Comm.LEFT, _) :: rest, _, d =>
    if true && d then some (true, d) else scanTail rest true d
  | (Comm.RIGHT, _) :: rest, s, _ =>
    if s && true then some (s, true) else scanTail rest s true
  | (Comm.BOTH, _) :: _, _, _ => none

/-- Models `find_mrcud` (`src/dataset.rs`): run the merge, return
`NoneInCommon` when no most-recent-common index was produced, otherwise
classify by which sides appear after the most recent common element.  `none`
models the panics (`comm`'s, an out-of-bounds index, or the `unreachable!`). -/
def find_mrcud (A B : List Snap) : Option MRCUD :=
  match comm A B with
  | none => none
  | some (_comm_vector, none) => some .NoneInCommon
  | some (comm_vector, some most_recent_common_idx) =>
    match comm_vector[most_recent_common_idx]? with
    | none => none
    | some (_, most_recent_common_snap) =>
      match scanTail (comm_vector.drop (most_recent_common_idx + 1)) false false with
      | none => none
      | some (source_has_more, destination_has_more) =>
        some (match source_has_more, destination_has_more with
          | false, false => .UpToDate most_recent_common_snap
          | true, false => .SourceHasMore most_recent_common_snap
          | false, true => .DestinationHasMore most_recent_common_snap
          | true, true => .Divergence most_recent_common_snap)

/-- On a BOTH-free tail the scanning loop returns exactly the two
any-predicates. -/
lemma scanTail_spec (l : List (Comm × Snap)) :
    ∀ s d : Bool, (∀ p ∈ l, p.1 ≠ Comm.BOTH) →
    scanTail l s d =
      some (s || l.any (fun p => p.1 == Comm.LEFT),
            d || l.any (fun p => p.1 == Comm.RIGHT)) := by
  induction l with
  | nil => intro s d _; simp [scanTail]
  | cons q rest ih =>
    intro s d hq
    obtain ⟨c, sn⟩ := q
    cases c with
    | LEFT =>
      rw [scanTail]
      cases d with
      | true => simp
      | false =>
        simp only [Bool.true_and, if_false, Bool.false_or]
        rw [ih true false (fun p hp => hq p (List.mem_cons_of_mem _ hp))]
        simp
    | RIGHT =>
      rw [scanTail]
      cases s with
      | true => simp
      | false =>
        simp only [Bool.and_true, if_false, Bool.false_or]
        rw [ih false true (fun p hp => hq p (List.mem_cons_of_mem _ hp))]
        simp
    | BOTH => exact absurd rfl (hq (Comm.BOTH, sn) (by simp))

lemma mem_leftProj_of_both {out : List (Comm × Snap)} {s : Snap}
    (h : (Comm.BOTH, s) ∈ out) : s ∈ leftProj out := by
  unfold leftProj
  refine List.mem_map.mpr ⟨(Comm.BOTH, s), ?_, rfl⟩
  exact List.mem_filter.mpr ⟨h, by simp⟩

/-- Two incomparable snapshots (distinct guids, equal creations) used to
exhibit the merge's panic. -/
def snapE1 : Snap := { guid := 1, name := ['a'], creation := 0, holds := 0 }

/-- See `snapE1`. -/
def snapE2 : Snap := { guid := 2, name := ['b'], creation := 0, holds := 0 }

/-- Well-formed example snaps for witnesses. -/
def snapW1 : Snap := { guid := 11, name := ['s', '1'], creation := 10, holds := 0 }

/-- See `snapW1`. -/
def snapW2 : Snap := { guid := 12, name := ['s', '2'], creation := 20, holds := 0 }

/-- See `snapW1`. -/
def snapW3 : Snap := { guid := 13, name := ['s', '3'], creation := 30, holds := 0 }

/-- Claim C1, as stated, is false: its hypotheses (pairwise distinct guids,
strictly increasing creations) admit the pair `([snapE1], [snapE2])` whose
heads have distinct guids but equal creations, on which `Dataset::comm`
panics (modelled as `none`) instead of returning the tagged 2-element
vector the claim promises. -/
theorem c1_counterexample :
    sortedStrict [snapE1] ∧ sortedStrict [snapE2] ∧
    snapE1.guid ≠ snapE2.guid ∧
    comm [snapE1] [snapE2] = none := by
  refine ⟨by decide, by decide, by decide, ?_⟩
  exact comm_cons_none [] [] (by decide)

/-- Claim C1 (amended): for snapshot vectors with strictly increasing
creations which are additionally guid/creation-aligned across the pair (the
engine's documented precondition: equal guid iff equal creation), `comm`
returns a tagged vector of length `|A| + |B| − |A ∩ B|` (stated additively
with `interCount`), whose subsequence of LEFT/BOTH elements is exactly `A` in
order, and whose subsequence of RIGHT/BOTH elements is exactly `B` in order,
snapshot identity being guid equality as in the program's `PartialEq`. -/
theorem c1_comm_tagged_merge (A B : List Snap)
    (hA : sortedStrict A) (hB : sortedStrict B) (hal : aligned A B) :
    ∃ out idx, comm A B = some (out, idx) ∧
      out.length + interCount A B = A.length + B.length ∧
      leftProj out = A ∧
      (rightProj out).map Snap.guid = B.map Snap.guid := by
  obtain ⟨out, idx, hcm, hlen⟩ :=
    comm_total (A.length + B.length) A B rfl hA hB hal
  obtain ⟨hl, hr⟩ := comm_proj (A.length + B.length) A B out idx rfl hcm
  exact ⟨out, idx, hcm, hlen, hl, hr⟩

/-- Witness for `c1_comm_tagged_merge` at `A = [snapW1, snapW2]`,
`B = [snapW1, snapW3]`. -/
theorem c1_comm_tagged_merge_witness :
    (sortedStrict [snapW1, snapW2] ∧ sortedStrict [snapW1, snapW3] ∧
      aligned [snapW1, snapW2] [snapW1, snapW3]) ∧
    (∃ out idx, comm [snapW1, snapW2] [snapW1, snapW3] = some (out, idx) ∧
      out.length + interCount [snapW1, snapW2] [snapW1, snapW3] =
        ([snapW1, snapW2] : List Snap).length + ([snapW1, snapW3] : List Snap).length ∧
      leftProj out = [snapW1, snapW2] ∧
      (rightProj out).map Snap.guid = ([snapW1, snapW3] : List Snap).map Snap.guid) :=
  ⟨⟨by decide, by decide, by decide⟩,
    c1_comm_tagged_merge [snapW1, snapW2] [snapW1, snapW3]
      (by decide) (by decide) (by decide)⟩

/-- Claim C2, as stated, is false: its precondition (distinct guids, strictly
increasing creations) admits the pair `([snapE1], [snapE2])` — distinct
guids, equal creations — on which the merge inside `find_mrcud` panics
(modelled as `none`), so `find_mrcud` returns neither `NoneInCommon` nor any
classification. -/
theorem c2_counterexample :
    sortedStrict [snapE1] ∧ sortedStrict [snapE2] ∧
    snapE1.guid ≠ snapE2.guid ∧
    find_mrcud [snapE1] [snapE2] = none := by
  refine ⟨by decide, by decide, by decide, ?_⟩
  have hc : comm [snapE1] [snapE2] = none := comm_cons_none [] [] (by decide)
  rw [find_mrcud, hc]

/-- Claim C2 (amended): on well-ordered inputs in the sense the engine
documents (strictly increasing creations, and across the pair equal guid iff
equal creation), `find_mrcud` returns `NoneInCommon` exactly when the merge
contains no BOTH element;
otherwise, with `i` the most-recent-common index, position `i` of the merge is
a BOTH element whose snapshot is drawn from `A` (the source side), no BOTH
follows it, and the classification is by the presence of LEFT/RIGHT tags in
the tail after `i`: neither = UpToDate, LEFT only = SourceHasMore, RIGHT only
= DestinationHasMore, both = Divergence, each carrying that snapshot. -/
theorem c2_find_mrcud_classification (A B : List Snap)
    (hA : sortedStrict A) (hB : sortedStrict B) (hal : aligned A B) :
    ∃ out idx, comm A B = some (out, idx) ∧
      (find_mrcud A B = some MRCUD.NoneInCommon ↔ (∀ p ∈ out, p.1 ≠ Comm.BOTH)) ∧
      (∀ i, idx = some i → ∃ mrc,
        out[i]? = some (Comm.BOTH, mrc) ∧ mrc ∈ A ∧
        (∀ j p, i < j → out[j]? = some p → p.1 ≠ Comm.BOTH) ∧
        find_mrcud A B = some (
          match (out.drop (i + 1)).any (fun p => p.1 == Comm.LEFT),
                (out.drop (i + 1)).any (fun p => p.1 == Comm.RIGHT) with
          | false, false => MRCUD.UpToDate mrc
          | true, false => MRCUD.SourceHasMore mrc
          | false, true => MRCUD.DestinationHasMore mrc
          | true, true => MRCUD.Divergence mrc)) := by
  obtain ⟨out, idx, hcm, _⟩ :=
    comm_total (A.length + B.length) A B rfl hA hB hal
  obtain ⟨hl, _⟩ := comm_proj (A.length + B.length) A B out idx rfl hcm
  obtain ⟨hnone, hsome⟩ := comm_idx (A.length + B.length) A B out idx rfl hcm
  refine ⟨out, idx, hcm, ?_⟩
  cases idx with
  | none =>
    constructor
    · constructor
      · intro _; exact hnone rfl
      · intro _; simp [find_mrcud, hcm]
    · intro i hi; simp at hi
  | some i =>
    obtain ⟨s, hs, hafter⟩ := hsome i rfl
    have htail : ∀ p ∈ out.drop (i + 1), p.1 ≠ Comm.BOTH := by
      intro p hp
      obtain ⟨k, hk⟩ := List.mem_iff_getElem?.mp hp
      rw [List.getElem?_drop] at hk
      exact hafter (i + 1 + k) p (by omega) hk
    have hfind : find_mrcud A B = some (
        match (out.drop (i + 1)).any (fun p => p.1 == Comm.LEFT),
              (out.drop (i + 1)).any (fun p => p.1 == Comm.RIGHT) with
        | false, false => MRCUD.UpToDate s
        | true, false => MRCUD.SourceHasMore s
        | false, true => MRCUD.DestinationHasMore s
        | true, true => MRCUD.Divergence s) := by
      rw [find_mrcud, hcm]
      simp only [hs]
      rw [scanTail_spec (out.drop (i + 1)) false false htail]
      simp only [Bool.false_or]
    constructor
    · constructor
      · intro hnic
        rw [hfind] at hnic
        exfalso
        revert hnic
        cases (out.drop (i + 1)).any (fun p => p.1 == Comm.LEFT) <;>
          cases (out.drop (i + 1)).any (fun p => p.1 == Comm.RIGHT) <;> simp
      · intro hall
        exact absurd rfl (hall (Comm.BOTH, s) (List.getElem?_mem hs))
    · intro i' hi'
      injection hi' with hi'
      subst hi'
      exact ⟨s, hs, hl ▸ mem_leftProj_of_both (List.getElem?_mem hs), hafter, hfind⟩

/-- Witness for `c2_find_mrcud_classification` at `A = [snapW1, snapW2]`,
`B = [snapW1, snapW3]`. -/
theorem c2_find_mrcud_classification_witness :
    (sortedStrict [snapW1, snapW2] ∧ sortedStrict [snapW1, snapW3] ∧
      aligned [snapW1, snapW2] [snapW1, snapW3]) ∧
    (∃ out idx, comm [snapW1, snapW2] [snapW1, snapW3] = some (out, idx) ∧
      (find_mrcud [snapW1, snapW2] [snapW1, snapW3] = some MRCUD.NoneInCommon ↔
        (∀ p ∈ out, p.1 ≠ Comm.BOTH)) ∧
      (∀ i, idx = some i → ∃ mrc,
        out[i]? = some (Comm.BOTH, mrc) ∧ mrc ∈ [snapW1, snapW2] ∧
        (∀ j p, i < j → out[j]? = some p → p.1 ≠ Comm.BOTH) ∧
        find_mrcud [snapW1, snapW2] [snapW1, snapW3] = some (
          match (out.drop (i + 1)).any (fun p => p.1 == Comm.LEFT),
                (out.drop (i + 1)).any (fun p => p.1 == Comm.RIGHT) with
          | false, false => MRCUD.UpToDate mrc
          | true, false => MRCUD.SourceHasMore mrc
          | false, true => MRCUD.DestinationHasMore mrc
          | true, true => MRCUD.Divergence mrc))) :=
  ⟨⟨by decide, by decide, by decide⟩,
    c2_find_mrcud_classification [snapW1, snapW2] [snapW1, snapW3]
      (by decide) (by decide) (by decide)⟩

/-- Claim C7: `Snap` comparison returns `Equal` exactly when the guids are
equal, `Less`/`Greater` by creation time when guids and creations both
differ, and no result exactly when guids differ but creations coincide; and
whenever the heads of the two input vectors compare as undefined,
`Dataset::comm` aborts with a logic error (modelled as `none`) instead of
emitting a tagged element. -/
theorem c7_ordering_and_abort :
    (∀ a b : Snap,
      (Snap.pcmp a b = some .eq ↔ a.guid = b.guid) ∧
      (a.guid ≠ b.guid → a.creation < b.creation → Snap.pcmp a b = some .lt) ∧
      (a.guid ≠ b.guid → b.creation < a.creation → Snap.pcmp a b = some .gt) ∧
      (Snap.pcmp a b = none ↔ (a.guid ≠ b.guid ∧ a.creation = b.creation))) ∧
    (∀ (x y : Snap) (xs ys : List Snap),
      Snap.pcmp x y = none → comm (x :: xs) (y :: ys) = none) := by
  constructor
  · intro a b
    refine ⟨?_, ?_, ?_, ?_⟩
    · by_cases hg : a.guid = b.guid
      · simp [Snap.pcmp, hg]
      · simp only [Snap.pcmp, hg, if_false]
        split_ifs <;> simp [hg]
    · intro hg hlt
      simp [Snap.pcmp, hg, hlt]
    · intro hg hgt
      simp [Snap.pcmp, hg, hgt, not_lt_of_gt hgt]
    · by_cases hg : a.guid = b.guid
      · simp [Snap.pcmp, hg]
      · simp only [Snap.pcmp, hg, if_false]
        rcases lt_trichotomy a.creation b.creation with h | h | h
        · simp [h, hg]; omega
        · simp [h, hg, lt_irrefl]
        · simp [h, hg, not_lt_of_gt h]; omega
  · intro x y xs ys h
    exact comm_cons_none xs ys h

/-- Witness for `c7_ordering_and_abort`: the incomparable pair
`(snapE1, snapE2)` makes the merge abort. -/
theorem c7_ordering_and_abort_witness :
    Snap.pcmp snapE1 snapE2 = none ∧ comm [snapE1] [snapE2] = none :=
  ⟨by decide, c7_ordering_and_abort.2 snapE1 snapE2 [] [] (by decide)⟩

/-- Models `enum Machine` of `src/machine.rs` (`host` embedded as chars). -/
inductive Machine where
  | Local
  | Remote (host : List Char)
deriving DecidableEq, Repr

/-- Models `impl FromStr for Machine`: the empty host string is the local
machine, anything else a remote host.  (The Rust signature returns
`Result<_, SpecParseError>` but never errs; the infallible value is embedded
directly.) -/
def Machine.fromStr (s : List Char) : Machine :=
  if s.length = 0 then .Local else .Remote s

/-- Models `enum SpecParseError` of `src/dataset.rs` (the carried offending
string is dropped; only the error kind matters here). -/
inductive SpecParseError where
  | ColonAfterSlash
  | ZeroLengthAfterColon
  | IllegalSlashes
  | IllegalCharacters
  | EmptyComponent
deriving DecidableEq, Repr

/-- Models `struct Dataset` of `src/dataset.rs` (`fullname` as chars; all
characters are ASCII after validation, so byte offsets coincide with
character offsets). -/
structure Dataset where
  fullname : List Char
  pool_idx : Nat
  relative_idx : Option Nat
  snaps : List Snap
deriving DecidableEq, Repr

/-- Models `Dataset::pool`: `&self.fullname[0..self.pool_idx]`. -/
def Dataset.pool (d : Dataset) : List Char :=
  d.fullname.take d.pool_idx

/-- Models `Dataset::relative`: `&self.fullname[idx+1..]` when a relative
marker is present, otherwise the empty string. -/
def Dataset.relative (d : Dataset) : List Char :=
  match d.relative_idx with
  | some idx => d.fullname.drop (idx + 1)
  | none => []

/-- Models `Dataset::append_relative`: push `'/'` and the partner's relative
part when the latter is non-empty. -/
def Dataset.append_relative (d other : Dataset) : Dataset :=
  if other.relative ≠ [] then
    { d with fullname := d.fullname ++ '/' :: other.relative }
  else d

/-- The character whitelist of `Dataset::from_str`: ASCII alphanumeric,
dash, underscore or slash. -/
def legalChar (c : Char) : Bool :=
  c.isAlphanum || c = '-' || c = '_' || c = '/'

/-- Models `str::find("//")`: index of the first character of the first
double-slash occurrence, if any. -/
def findDoubleSlash : List Char → Option Nat
  | [] => none
  | [_] => none
  | a :: b :: rest =>
    if a = '/' ∧ b = '/' then some 0
    else (findDoubleSlash (b :: rest)).map (· + 1)

/-- Models `str::replacen("//", "/", 1)`: drop one slash of the first
double-slash occurrence. -/
def removeFirstDoubleSlash : List Char → List Char
  | [] => []
  | [c] => [c]
  | a :: b :: rest =>
    if a = '/' ∧ b = '/' then a :: rest
    else a :: removeFirstDoubleSlash (b :: rest)

/-- Models `impl FromStr for Dataset` (`src/dataset.rs` lines 322-351).
The outer `Option` models the `assert!` on a zero-length input; the inner
`Except` is the Rust `Result`. -/
def Dataset.fromStr (value : List Char) : Option (Except SpecParseError Dataset) :=
  if value.length = 0 then none
  else if (value.all legalChar) = false then some (.error .IllegalCharacters)
  else if value.head? = some '/' ∨ value.getLast? = some '/' then
    some (.error .IllegalSlashes)
  else
    let doubleslash := findDoubleSlash value
    let fullname :=
      match doubleslash with
      | some _ => removeFirstDoubleSlash value
      | none => value
    if (findDoubleSlash fullname).isSome then some (.error .EmptyComponent)
    else some (.ok
      { fullname := fullname
        pool_idx := fullname.findIdx (fun c => c = '/')
        relative_idx := doubleslash
        snaps := [] })

/-- Models the `ColonAfterSlash` test of `parse_spec`: a colon and a slash
both occur and the first colon comes after the first slash. -/
def colonAfterSlash (first_colon first_slash : Option Nat) : Bool :=
  match first_colon, first_slash with
  | some cidx, some sidx => decide (cidx > sidx)
  | _, _ => false

/-- Models `parse_spec` (`src/dataset.rs` lines 236-258).  The outer `Option`
models a panicking execution (only possible through `Dataset::from_str`'s
assertion, which the length test rules out); the `Except` is the Rust
`Result`. -/
def parse_spec (value : List Char) :
    Option (Except SpecParseError (Machine × Dataset)) :=
  let first_colon := value.findIdx? (fun c => c = ':')
  let first_slash := value.findIdx? (fun c => c = '/')
  if colonAfterSlash first_colon first_slash then some (.error .ColonAfterSlash)
  else
    let dataset_spec :=
      match first_colon with
      | none => value
      | some colon_idx => value.drop (colon_idx + 1)
    if dataset_spec.length = 0 then some (.error .ZeroLengthAfterColon)
    else
      let machine_spec :=
        match first_colon with
        | none => ([] : List Char)
        | some colon_idx => value.take colon_idx
      match Dataset.fromStr dataset_spec with
      | none => none
      | some (.error e) => some (.error e)
      | some (.ok d) => some (.ok (Machine.fromStr machine_spec, d))

lemma mem_removeFirstDoubleSlash {c : Char} :
    ∀ {l : List Char}, c ∈ removeFirstDoubleSlash l → c ∈ l := by
  intro l
  induction l with
  | nil => simp [removeFirstDoubleSlash]
  | cons a t ih =>
    cases t with
    | nil => simp [removeFirstDoubleSlash]
    | cons b rest =>
      rw [removeFirstDoubleSlash]
      split
      · intro hc
        rcases List.mem_cons.mp hc with rfl | hc'
        · exact List.mem_cons_self _ _
        · exact List.mem_cons_of_mem _ (List.mem_cons_of_mem _ hc')
      · intro hc
        rcases List.mem_cons.mp hc with rfl | hc'
        · exact List.mem_cons_self _ _
        · exact List.mem_cons_of_mem _ (ih hc')

lemma head?_removeFirstDoubleSlash :
    ∀ l : List Char, (removeFirstDoubleSlash l).head? = l.head? := by
  intro l
  match l with
  | [] => rfl
  | [c] => rfl
  | a :: b :: rest =>
    rw [removeFirstDoubleSlash]
    split <;> rfl

lemma removeFirstDoubleSlash_ne_nil {l : List Char} (h : l ≠ []) :
    removeFirstDoubleSlash l ≠ [] := by
  intro hnil
  have := head?_removeFirstDoubleSlash l
  rw [hnil] at this
  cases l with
  | nil => exact h rfl
  | cons a t => simp at this

lemma getLast?_removeFirstDoubleSlash :
    ∀ l : List Char, l.getLast? ≠ some '/' →
    (removeFirstDoubleSlash l).getLast? ≠ some '/' := by
  intro l
  induction l with
  | nil => simp [removeFirstDoubleSlash]
  | cons a t ih =>
    cases t with
    | nil => simp [removeFirstDoubleSlash]
    | cons b rest =>
      intro hlast
      rw [removeFirstDoubleSlash]
      split
      · rename_i hab
        cases rest with
        | nil =>
          exfalso
          apply hlast
          simp [List.getLast?, hab.2]
        | cons r rs =>
          have : (a :: r :: rs).getLast? = (b :: r :: rs).getLast? := by
            simp [List.getLast?_cons_cons]
          rw [this]
          rw [List.getLast?_cons_cons] at hlast
          exact hlast
      · have hne : removeFirstDoubleSlash (b :: rest) ≠ [] :=
          removeFirstDoubleSlash_ne_nil (by simp)
        have htl : (b :: rest).getLast? ≠ some '/' := by
          rw [List.getLast?_cons_cons] at hlast
          exact hlast
        have := ih htl
        obtain ⟨x, xs, hx⟩ := List.exists_cons_of_ne_nil hne
        rw [hx]
        rw [hx] at this
        rw [List.getLast?_cons_cons]
        exact this

/-- The `Ok` branch of `Dataset::from_str` establishes the `fullname`
invariants. -/
lemma fromStr_ok_invariants (v : List Char) (d : Dataset)
    (h : Dataset.fromStr v = some (.ok d)) :
    d.fullname.all legalChar = true ∧
    d.fullname.head? ≠ some '/' ∧
    d.fullname.getLast? ≠ some '/' ∧
    findDoubleSlash d.fullname = none ∧
    d.pool ≠ [] := by
  unfold Dataset.fromStr at h
  dsimp only at h
  split at h
  · simp at h
  split at h
  · simp at h
  split at h
  · simp at h
  rename_i hlen hchars hslash
  split at h
  · simp at h
  rename_i hdsl
  simp only [Option.some.injEq, Except.ok.injEq] at h
  subst h
  rw [not_or] at hslash
  obtain ⟨hhead, hlast⟩ := hslash
  have hvne : v ≠ [] := by
    intro hv; rw [hv] at hlen; simp at hlen
  have hall : v.all legalChar = true := by
    cases hv : v.all legalChar
    · exact absurd hv hchars
    · rfl
  set fn := (match findDoubleSlash v with
    | some _ => removeFirstDoubleSlash v
    | none => v) with hfn
  have hfn_mem : ∀ c ∈ fn, c ∈ v := by
    intro c hc
    rw [hfn] at hc
    revert hc
    cases findDoubleSlash v
    · exact fun hc => hc
    · exact fun hc => mem_removeFirstDoubleSlash hc
  have hfn_head : fn.head? = v.head? := by
    rw [hfn]
    cases findDoubleSlash v
    · rfl
    · exact head?_removeFirstDoubleSlash v
  have hfn_last : fn.getLast? ≠ some '/' := by
    rw [hfn]
    cases findDoubleSlash v
    · exact hlast
    · exact getLast?_removeFirstDoubleSlash v hlast
  have hfn_ne : fn ≠ [] := by
    rw [hfn]
    cases findDoubleSlash v
    · exact hvne
    · exact removeFirstDoubleSlash_ne_nil hvne
  refine ⟨?_, ?_, ?_, ?_, ?_⟩
  · rw [List.all_eq_true]
    intro c hc
    exact (List.all_eq_true.mp hall) c (hfn_mem c hc)
  · simpa [hfn_head] using hhead
  · exact hfn_last
  · exact Option.not_isSome_iff_eq_none.mp hdsl
  · obtain ⟨c, t, hct⟩ := List.exists_cons_of_ne_nil hfn_ne
    have hcslash : c ≠ '/' := by
      intro hc
      apply hhead
      rw [← hfn_head, hct, hc]
      rfl
    unfold Dataset.pool
    simp only [hct, List.findIdx_cons, hcslash, decide_eq_true_eq]
    simp [hcslash]

/-- Claim C5: whenever `parse_spec` succeeds, the parsed dataset's `fullname`
contains only ASCII alphanumerics, `-`, `_` and `/`, neither begins nor ends
with `/`, contains no `//`, and consequently `pool()` (the prefix up to the
first `/`) is non-empty. -/
theorem c5_parse_spec_fullname_invariants (a : List Char) (m : Machine)
    (d : Dataset) (h : parse_spec a = some (.ok (m, d))) :
    d.fullname.all legalChar = true ∧
    d.fullname.head? ≠ some '/' ∧
    d.fullname.getLast? ≠ some '/' ∧
    findDoubleSlash d.fullname = none ∧
    d.pool ≠ [] := by
  unfold parse_spec at h
  dsimp only at h
  split at h
  · simp at h
  split at h
  · simp at h
  split at h
  · simp at h
  · simp at h
  · rename_i d' heq
    simp only [Option.some.injEq, Except.ok.injEq, Prod.mk.injEq] at h
    obtain ⟨_, rfl⟩ := h
    exact fromStr_ok_invariants _ d' heq

/-- The dataset value produced by parsing `"nas:tank/a//b"`. -/
def parsedExampleDataset : Dataset :=
  { fullname := "tank/a/b".toList, pool_idx := 4, relative_idx := some 6, snaps := [] }

/-- Witness for `c5_parse_spec_fullname_invariants` on the address
`"nas:tank/a//b"`. -/
theorem c5_parse_spec_fullname_invariants_witness :
    parse_spec ("nas:tank/a//b".toList) =
      some (.ok (Machine.Remote ("nas".toList), parsedExampleDataset)) ∧
    (parsedExampleDataset.fullname.all legalChar = true ∧
     parsedExampleDataset.fullname.head? ≠ some '/' ∧
     parsedExampleDataset.fullname.getLast? ≠ some '/' ∧
     findDoubleSlash parsedExampleDataset.fullname = none ∧
     parsedExampleDataset.pool ≠ []) :=
  ⟨by rfl, c5_parse_spec_fullname_invariants ("nas:tank/a//b".toList) _ _ (by rfl)⟩

/-- Sunday test for an epoch-seconds instant, modelling chrono's
`Datelike::weekday() == Weekday::Sun` on a second-precision UTC instant: the
Unix epoch day (1970-01-01) was a Thursday, so the civil day containing `t`
is a Sunday iff its day number is congruent to 3 modulo 7. -/
def isSundayEpoch (t : Int) : Bool :=
  (t.fdiv 86400 + 4) % 7 == 0

/-- Models the regex `^\d{4}-\d{2}-\d{2}$` used by the retention criterion:
exactly four ASCII digits, a dash, two digits, a dash, two digits. -/
def normalNameMatch : List Char → Bool
  | [y1, y2, y3, y4, s1, m1, m2, s2, d1, d2] =>
    y1.isDigit && y2.isDigit && y3.isDigit && y4.isDigit &&
    s1 == '-' && m1.isDigit && m2.isDigit && s2 == '-' && d1.isDigit && d2.isDigit
  | _ => false

/-- Models `__basic_snap_retention_criteria` (`src/dataset.rs` lines
431-443); a `true` verdict means KEEP.  `Duration::days(180)` is
15552000 seconds. -/
def __basic_snap_retention_criteria (s : Snap) (when : Int) : Bool :=
  let chrono_decision :=
    isSundayEpoch s.creation && decide (when - s.creation < 15552000)
  let name_decision := !(normalNameMatch s.name)
  let holds_decision := s.holds != 0
  chrono_decision || name_decision || holds_decision

/-- Models `Dataset::tag_snaps_for_deletion`: pair every snapshot with the
criterion's keep-verdict, in order. -/
def tag_snaps_for_deletion (ds : Dataset) (f : Snap → Bool) : List (Bool × Snap) :=
  ds.snaps.map (fun snap => (f snap, snap))

/-- Claim C8: the default retention criterion keeps a snapshot iff its
creation falls on a Sunday less than 180 days before `now`, or its hold count
is positive, or its name does not match `^\d{4}-\d{2}-\d{2}$` (the
unusual-name disjunct as it stands in the criterion, i.e. with `keep_unusual`
in effect — the only wiring present, since `apply_retention` is
unimplemented); and a snapshot satisfying none of the disjuncts is tagged
with a `false` (delete) verdict by `tag_snaps_for_deletion`. -/
theorem c8_retention_criterion (s : Snap) (now : Int) :
    (__basic_snap_retention_criteria s now = true ↔
      ((isSundayEpoch s.creation = true ∧ now - s.creation < 15552000) ∨
        0 < s.holds ∨ normalNameMatch s.name = false)) ∧
    (∀ ds : Dataset, s ∈ ds.snaps →
      ¬((isSundayEpoch s.creation = true ∧ now - s.creation < 15552000) ∨
          0 < s.holds ∨ normalNameMatch s.name = false) →
      (false, s) ∈
        tag_snaps_for_deletion ds (fun u => __basic_snap_retention_criteria u now)) := by
  have hiff : __basic_snap_retention_criteria s now = true ↔
      ((isSundayEpoch s.creation = true ∧ now - s.creation < 15552000) ∨
        0 < s.holds ∨ normalNameMatch s.name = false) := by
    unfold __basic_snap_retention_criteria
    simp only [Bool.or_eq_true, Bool.and_eq_true, decide_eq_true_eq,
      Bool.not_eq_true', bne_iff_ne, ne_eq]
    constructor
    · rintro ((⟨h1, h2⟩ | h2) | h3)
      · exact Or.inl ⟨h1, h2⟩
      · exact Or.inr (Or.inr h2)
      · exact Or.inr (Or.inl (Nat.pos_of_ne_zero h3))
    · rintro (⟨h1, h2⟩ | h | h)
      · exact Or.inl (Or.inl ⟨h1, h2⟩)
      · exact Or.inr (Nat.pos_iff_ne_zero.mp h)
      · exact Or.inl (Or.inr h)
  refine ⟨hiff, ?_⟩
  intro ds hmem hnone
  have hfalse : __basic_snap_retention_criteria s now = false := by
    cases hv : __basic_snap_retention_criteria s now
    · rfl
    · exact absurd (hiff.mp hv) hnone
  unfold tag_snaps_for_deletion
  exact List.mem_map.mpr ⟨s, hmem, by simp only []; rw [hfalse]⟩

/-- Models `struct RetentionOpts` of `src/retention.rs`. -/
structure RetentionOpts where
  keep_unusual : Bool
  run_directly : Bool
deriving DecidableEq, Repr

/-- Models `apply_retention` (`src/retention.rs` lines 13-19): the body is
`unimplemented!()`, a panic on every input; a panicking execution is `none`,
a returned `Result<String, _>` would be `some`. -/
def apply_retention (_machine : Machine) (_ds : Dataset)
    (_opts : RetentionOpts) : Option (Except Unit (List Char)) :=
  none

/-- Claim C10: `apply_retention` unconditionally panics — for every machine,
dataset and options value it hits `unimplemented!()` (`none`), so it returns
neither a success message (`some (.ok _)`) nor an ordinary error
(`some (.error _)`). -/
theorem c10_apply_retention_unimplemented :
    ∀ (machine : Machine) (ds : Dataset) (opts : RetentionOpts),
      apply_retention machine ds opts = none := by
  intro machine ds opts
  rfl

/-- A snapshot kept by none of the retention disjuncts: taken on a Thursday
(the epoch), no holds, canonical name. -/
def snapPruned : Snap :=
  { guid := 21, name := "2021-01-02".toList, creation := 0, holds := 0 }

/-- A dataset holding `snapPruned`. -/
def dsPruned : Dataset :=
  { fullname := "tank".toList, pool_idx := 4, relative_idx := none,
    snaps := [snapPruned] }

/-- Witness for `c8_retention_criterion`: `snapPruned` satisfies no disjunct
and is tagged for deletion. -/
theorem c8_retention_criterion_witness :
    (snapPruned ∈ dsPruned.snaps ∧
      ¬((isSundayEpoch snapPruned.creation = true ∧
          (100 : Int) - snapPruned.creation < 15552000) ∨
        0 < snapPruned.holds ∨ normalNameMatch snapPruned.name = false)) ∧
    (false, snapPruned) ∈
      tag_snaps_for_deletion dsPruned
        (fun u => __basic_snap_retention_criteria u 100) :=
  ⟨⟨by decide, by decide⟩,
    (c8_retention_criterion snapPruned 100).2 dsPruned (by decide) (by decide)⟩

/-- Split a byte stream into the successive results of `BufRead::read_line`:
each piece keeps its terminating newline; a final unterminated piece is
yielded as-is.  An empty stream yields no pieces (`read_line` returns 0). -/
def rawLines : List Char → List (List Char)
  | [] => []
  | c :: rest =>
    if c = '\n' then ['\n'] :: rawLines rest
    else
      match rawLines rest with
      | [] => [[c]]
      | l :: ls => (c :: l) :: ls

/-- `BufRead::lines` semantics on one raw line: strip the terminating
newline if present (the streams at hand are ASCII, carriage returns do not
occur). -/
def chompNewline (l : List Char) : List Char :=
  if l.getLast? = some '\n' then l.dropLast else l

/-- Models `str::split(sep)`: the resulting field list is never empty. -/
def splitOn (sep : Char) : List Char → List (List Char)
  | [] => [[]]
  | c :: rest =>
    if c = sep then [] :: splitOn sep rest
    else
      match splitOn sep rest with
      | [] => [[c]]
      | f :: fs => (c :: f) :: fs

/-- Models `u64::from_str` on the ASCII fields at hand: non-empty, all
digits.  (Overflow past `u64::MAX` is not modelled; the streams' sizes fit.)
`none` models a parse failure, whose `unwrap`/`expect` panics. -/
def parseU64? (l : List Char) : Option Nat :=
  if l ≠ [] ∧ l.all Char.isDigit then
    some (l.foldl (fun acc c => acc * 10 + (c.toNat - 48)) 0)
  else none

/-- Models the header loop of `do_progressbar_from_zfs_send_stderr`
(`src/progressbar.rs` lines 15-38): consume `read_line` results, strip the
final character in place (`truncate(len-1)` — on the last unterminated line
this drops a payload character, as in the Rust), split on tabs, stop at the
`size` line.  `acc` is `itemized_header_lines`.  `none` models a panic:
`read_line` returning 0 (`assert_ne!`), a missing field, a failed parse
(`unwrap`), or an unknown header form (`unimplemented!`). -/
def progressHeaderLoop :
    List (List Char) → List (List Char × Nat) →
    Option (List (List Char × Nat) × Nat × List (List Char))
  | [], _ => none
  | line :: rest, acc =>
    let tmpline := line.dropLast
    match splitOn '\t' tmpline with
    | [] => none
    | f0 :: ftail =>
      if f0 = "size".toList then
        match ftail with
        | [] => none
        | f1 :: _ =>
          match parseU64? f1 with
          | none => none
          | some total => some (acc, total, rest)
      else if f0 = "full".toList then
        match ftail with
        | f1 :: f2 :: _ =>
          match (splitOn '@' f1).getLast? with
          | none => none
          | some toName =>
            match parseU64? f2 with
            | none => none
            | some sz => progressHeaderLoop rest (acc ++ [(toName, sz)])
        | _ => none
      else if f0 = "incremental".toList then
        match ftail with
        | _f1 :: f2 :: f3 :: _ =>
          match (splitOn '@' f2).getLast? with
          | none => none
          | some toName =>
            match parseU64? f3 with
            | none => none
            | some sz => progressHeaderLoop rest (acc ++ [(toName, sz)])
        | _ => none
      else none

/-- Models the inner `while` search of the data loop (`src/progressbar.rs`
lines 79-84): advance `cur_idx` until the header item named `name`; running
past the end (`assert!`/index out of bounds) is `none`. -/
def findHeaderItem (items : List (List Char × Nat)) (name : List Char) (i : Nat) :
    Option Nat :=
  match h : items[i]? with
  | none => none
  | some (nm, _) =>
    if nm = name then some i else findHeaderItem items name (i + 1)
termination_by items.length - i
decreasing_by
  have hlt : i < items.length := by
    by_contra hge
    rw [List.getElem?_eq_none (by omega)] at h
    exact absurd h (by simp)
  omega

/-- Models the data-line loop of `do_progressbar_from_zfs_send_stderr`
(`src/progressbar.rs` lines 61-104).  The running state drives the progress
bars; `none` models the panics: a missing field, a failed parse, the
`assert_eq!` on the field count, a `u64` underflow in the byte deltas
(debug-build semantics), and the out-of-bounds item search. -/
def progressDataLoop :
    List (List Char) → List (List Char × Nat) → Nat → Nat → List Char → Nat →
    Option Unit
  | [], _, _, _, _, _ => some ()
  | rawline :: rest, items, cur_xfer, cur_idx, cur_name, cur_bytes =>
    let progress := chompNewline rawline
    let fields := splitOn '\t' progress
    match fields[2]? with
    | none => none
    | some f2 =>
      match fields[1]? with
      | none => none
      | some f1 =>
        match parseU64? f1 with
        | none => none
        | some xfer =>
          if fields.length ≠ 3 then none
          else
            match (splitOn '@' f2).getLast? with
            | none => none
            | some name =>
              if cur_name ≠ name then
                if cur_bytes < cur_xfer then none
                else
                  match findHeaderItem items name (cur_idx + 1) with
                  | none => none
                  | some j =>
                    match items[j]? with
                    | none => none
                    | some (nm, bs) => progressDataLoop rest items xfer j nm bs
              else
                if xfer < cur_xfer then none
                else progressDataLoop rest items xfer cur_idx cur_name cur_bytes

/-- Models `do_progressbar_from_zfs_send_stderr` (`src/progressbar.rs`): the
multi-bar renderer of the spec's §4.7.  The bars themselves are terminal
output; the model computes the state transitions that drive them.  `some ()`
is a clean return, `none` a panic. -/
def do_progressbar_from_zfs_send_stderr (stream : List Char) : Option Unit :=
  match progressHeaderLoop (rawLines stream) [] with
  | none => none
  | some (itemized_header_lines, _total_size, rest) =>
    match itemized_header_lines[0]? with
    | none => none
    | some (cur_snap_name, cur_snap_bytes) =>
      progressDataLoop rest itemized_header_lines 0 0 cur_snap_name cur_snap_bytes

/-- Claim C9, as stated, is false: on the empty input stream (zero bytes)
the renderer does not return cleanly — the first `read_line` reads 0 bytes
and the `assert_ne!(line, 0)` panics. -/
theorem c9_counterexample :
    do_progressbar_from_zfs_send_stderr [] ≠ some () := by decide

/-- Claim C9 (amended): on the empty input stream the progress renderer
panics (modelled as `none`): it asserts that the stream is non-empty rather
than tolerating it. -/
theorem c9_progressbar_empty_stream_panics :
    do_progressbar_from_zfs_send_stderr [] = none := rfl

/-- Models `enum MachineError` of `src/machine.rs` (error payloads
dropped). -/
inductive MachineErr where
  | NoDataset
  | IllegalZFSName
  | NameAlreadyInUse
  | NoZFSRuntime
  | SubprocessError
  | ZFSCommandExecutionError
deriving DecidableEq, Repr

/-- Models `struct ReplicateDatasetOpts` of `src/replicate.rs`. -/
structure ReplicateDatasetOpts where
  use_rollback_flag_on_recv : Bool
  allow_divergent_destination : Bool
  allow_nonexistent_destination : Bool
  simple_incremental : Bool
  verbose_send : Bool
  verbose_recv : Bool
  dryrun_recv : Bool
  app_verbose : Bool
  take_snap_now : Option (List Char)
deriving DecidableEq, Repr

/-- The environment a replication run interacts with: the outcomes the
external machines and child processes would produce.  `replicate_dataset` is
deterministic given this data. -/
structure RepEnv where
  /-- Outcome of `create_snap_with_name` on the source, when requested. -/
  takeSnapError : Option MachineErr
  /-- Outcome of `get_snaps` on the source. -/
  srcSnaps : Except MachineErr (List Snap)
  /-- Outcome of `get_snaps` on the destination. -/
  dstSnaps : Except MachineErr (List Snap)
  /-- Whether spawning the send and recv children succeeds. -/
  spawnSendOk : Bool
  spawnRecvOk : Bool
  /-- Outcome of the progress renderer on the sender's stderr: `none` is a
  panic inside it, `some b` a `Result` with success `b`. -/
  progressOk : Option Bool
  /-- `ExitStatus::success()` of the awaited send / recv children. -/
  sendExitOk : Bool
  recvExitOk : Bool
deriving Repr

/-- Observable steps of a replication run, in order. -/
inductive RepEvent where
  /-- `create_snap_with_name` attempted on the source (take-snap-now). -/
  | snapTaken (name : List Char)
  | gotSrcSnaps
  | gotDstSnaps
  /-- `find_mrcud` evaluated, with its result. -/
  | classified (m : MRCUD)
  | sendSpawned
  | recvSpawned
  | progressDrawn
  | sendWaited (ok : Bool)
  | recvWaited (ok : Bool)
  /-- `eprintln!("There was a problem with the zfs-send process...")`. -/
  | warnedSendFailed
  /-- `eprintln!("There was a problem with the zfs-recv process...")`. -/
  | warnedRecvFailed
deriving DecidableEq, Repr

/-- The error returns of `replicate_dataset`, one per `return Err(...)` site
(`src/replicate.rs`); the constructor names paraphrase the message text. -/
inductive RepErrorKind where
  | takeSnapFailed
  | getSrcSnapsFailed
  | getDstSnapsFailed
  | nonexistentDestinationNoInit
  | noSnapshotsInCommon
  | destinationHasMoreHintReverse
  /-- The Divergence bail: its message text asks the user to retry with
  `--allow-divergent-destination`. -/
  | divergenceSuggestAllowDivergentDestination
  | spawnSendFailed
  | spawnRecvFailed
  | progressBarProblem
deriving DecidableEq, Repr

/-- The success returns of `replicate_dataset`. -/
inductive RepSuccess where
  /-- `"Nothing to do: ... already up-to-date at snapshot ..."`. -/
  | alreadyUpToDate (mrc : Snap)
  /-- `"Successfully synchronized ..."`. -/
  | synchronized
deriving DecidableEq, Repr

/-- Completion of a replication run. -/
inductive RepOutcome where
  | ok (msg : RepSuccess)
  | err (e : RepErrorKind)
  /-- A panic (`unreachable!`, `unwrap` or `find_mrcud`'s panics). -/
  | panicked
deriving DecidableEq, Repr

/-- Models the pipeline tail of `replicate_dataset` (`src/replicate.rs`
lines 171-200): spawn send, wire and spawn recv, stream stderr through the
progress renderer, wait for both children, print a diagnostic for each
nonzero exit status, and return the success message regardless. -/
def repPipeline (trace : List RepEvent) (_opts : ReplicateDatasetOpts)
    (env : RepEnv) : List RepEvent × RepOutcome :=
  if env.spawnSendOk = false then (trace, .err .spawnSendFailed)
  else
    let trace := trace ++ [.sendSpawned]
    if env.spawnRecvOk = false then (trace, .err .spawnRecvFailed)
    else
      let trace := trace ++ [.recvSpawned]
      match env.progressOk with
      | none => (trace, .panicked)
      | some false => (trace ++ [.progressDrawn], .err .progressBarProblem)
      | some true =>
        let trace := trace ++ [.progressDrawn,
          .sendWaited env.sendExitOk, .recvWaited env.recvExitOk]
        let trace := if env.sendExitOk then trace else trace ++ [.warnedSendFailed]
        let trace := if env.recvExitOk then trace else trace ++ [.warnedRecvFailed]
        (trace, .ok (.synchronized))

/-- Models the bail-early `match mrcud` of `replicate_dataset`
(`src/replicate.rs` lines 144-161) and the fall-through into the incremental
pipeline.  Note that the Divergence arm tests `use_rollback_flag_on_recv`,
not `allow_divergent_destination`. -/
def repAfterClassify (trace : List RepEvent) (mrcud : MRCUD)
    (opts : ReplicateDatasetOpts) (env : RepEnv) : List RepEvent × RepOutcome :=
  match mrcud with
  | .NoneInCommon => (trace, .err .noSnapshotsInCommon)
  | .UpToDate mrc => (trace, .ok (.alreadyUpToDate mrc))
  | .DestinationHasMore _ => (trace, .err .destinationHasMoreHintReverse)
  | .Divergence _ =>
    if !opts.use_rollback_flag_on_recv then
      (trace, .err .divergenceSuggestAllowDivergentDestination)
    else repPipeline trace opts env
  | .SourceHasMore _ => repPipeline trace opts env

/-- Models the `find_mrcud` call of `replicate_dataset` (`src/replicate.rs`
line 142) and everything after it. -/
def repClassify (trace : List RepEvent) (src dst : Dataset)
    (opts : ReplicateDatasetOpts) (env : RepEnv) : List RepEvent × RepOutcome :=
  match find_mrcud src.snaps dst.snaps with
  | none => (trace, .panicked)
  | some m => repAfterClassify (trace ++ [.classified m]) m opts env

/-- Models `replicate_dataset` (`src/replicate.rs` lines 78-201) over a
`RepEnv`: append the relative path, take the requested snapshot first (the
`take_snap_now` block is the first statement of the function), fetch the
source and destination snapshot lists, apply the nonexistent-destination
checks (the full-send branch is commented out in the source and does
nothing), classify, bail or run the incremental pipeline. -/
def replicate_dataset (src_ds dst_ds : Dataset)
    (opts : ReplicateDatasetOpts) (env : RepEnv) : List RepEvent × RepOutcome :=
  let dst_ds := dst_ds.append_relative src_ds
  let trace : List RepEvent :=
    match opts.take_snap_now with
    | some snap_name => [.snapTaken snap_name]
    | none => []
  if opts.take_snap_now.isSome ∧ env.takeSnapError.isSome then
    (trace, .err .takeSnapFailed)
  else
    match env.srcSnaps with
    | .error _ => (trace ++ [.gotSrcSnaps], .err .getSrcSnapsFailed)
    | .ok ssnaps =>
      let src_ds := { src_ds with snaps := ssnaps }
      let trace := trace ++ [.gotSrcSnaps]
      match env.dstSnaps with
      | .error .NoDataset =>
        let trace := trace ++ [.gotDstSnaps]
        if opts.allow_nonexistent_destination = false then
          (trace, .err .nonexistentDestinationNoInit)
        else
          repClassify trace src_ds dst_ds opts env
      | .error _ => (trace ++ [.gotDstSnaps], .err .getDstSnapsFailed)
      | .ok dsnaps =>
        let dst_ds := { dst_ds with snaps := dsnaps }
        let trace := trace ++ [.gotDstSnaps]
        repClassify trace src_ds dst_ds opts env

/-- A plain dataset (no relative marker, no snaps) for replication runs. -/
def dsT : Dataset :=
  { fullname := "tank".toList, pool_idx := 4, relative_idx := none, snaps := [] }

/-- Options with every flag clear. -/
def baseOpts : ReplicateDatasetOpts :=
  { use_rollback_flag_on_recv := false
    allow_divergent_destination := false
    allow_nonexistent_destination := false
    simple_incremental := false
    verbose_send := false
    verbose_recv := false
    dryrun_recv := false
    app_verbose := false
    take_snap_now := none }

/-- An environment whose snapshot lists diverge after `snapW1` and whose
processes all succeed. -/
def envDiv : RepEnv :=
  { takeSnapError := none
    srcSnaps := .ok [snapW1, snapW2]
    dstSnaps := .ok [snapW1, snapW3]
    spawnSendOk := true
    spawnRecvOk := true
    progressOk := some true
    sendExitOk := true
    recvExitOk := true }

/-- `-D` set, `-F` clear. -/
def optsDivAllowed : ReplicateDatasetOpts :=
  { baseOpts with allow_divergent_destination := true }

/-- `-F` set, `-D` clear. -/
def optsRollbackOnly : ReplicateDatasetOpts :=
  { baseOpts with use_rollback_flag_on_recv := true }

/-- Claim C3 evaluated on the code: on a Divergence run the bail is gated on
`use_rollback_flag_on_recv`, not on `allow_divergent_destination` — with `-D`
set but `-F` clear the run still fails (with the message that suggests
passing `--allow-divergent-destination`), and with `-F` set but `-D` clear it
proceeds all the way to the success message. -/
theorem c3_divergence_gate_wrong_flag :
    optsDivAllowed.allow_divergent_destination = true ∧
    optsDivAllowed.use_rollback_flag_on_recv = false ∧
    (replicate_dataset dsT dsT optsDivAllowed envDiv).2 =
      .err .divergenceSuggestAllowDivergentDestination ∧
    optsRollbackOnly.allow_divergent_destination = false ∧
    optsRollbackOnly.use_rollback_flag_on_recv = true ∧
    (replicate_dataset dsT dsT optsRollbackOnly envDiv).2 = .ok .synchronized := by
  have hc : comm [snapW1, snapW2] [snapW1, snapW3] =
      some ([(Comm.BOTH, snapW1), (Comm.LEFT, snapW2), (Comm.RIGHT, snapW3)],
        some 0) := by
    rw [comm_cons_eq [snapW2] [snapW3] (by decide),
        comm_cons_lt [] [] (by decide), comm_nil_left]
    rfl
  have hm : find_mrcud [snapW1, snapW2] [snapW1, snapW3] =
      some (.Divergence snapW1) := by
    rw [find_mrcud, hc]; rfl
  refine ⟨rfl, rfl, ?_, rfl, rfl, ?_⟩ <;>
    simp [replicate_dataset, repClassify, repAfterClassify, repPipeline, hm,
      dsT, baseOpts, optsDivAllowed, optsRollbackOnly, envDiv,
      Dataset.append_relative, Dataset.relative]

/-- An environment for a SourceHasMore run in which the zfs-send child exits
with a nonzero status while everything else succeeds. -/
def envSendFails : RepEnv :=
  { takeSnapError := none
    srcSnaps := .ok [snapW1, snapW2]
    dstSnaps := .ok [snapW1]
    spawnSendOk := true
    spawnRecvOk := true
    progressOk := some true
    sendExitOk := false
    recvExitOk := true }

/-- Claim C4 evaluated on the code at a failing input: the run waits for both
children (`sendWaited`/`recvWaited` appear in the trace), the send status is
nonzero, a diagnostic is printed for it — and the function nevertheless
returns the `Successfully synchronized` message instead of an error. -/
theorem c4_nonzero_exit_still_success :
    (replicate_dataset dsT dsT baseOpts envSendFails).2 = .ok .synchronized ∧
    (replicate_dataset dsT dsT baseOpts envSendFails).1 =
      [.gotSrcSnaps, .gotDstSnaps, .classified (.SourceHasMore snapW1),
       .sendSpawned, .recvSpawned, .progressDrawn,
       .sendWaited false, .recvWaited true, .warnedSendFailed] := by
  have hc : comm [snapW1, snapW2] [snapW1] =
      some ([(Comm.BOTH, snapW1), (Comm.LEFT, snapW2)], some 0) := by
    rw [comm_cons_eq [snapW2] [] (by decide), comm_nil_right]
    rfl
  have hm : find_mrcud [snapW1, snapW2] [snapW1] =
      some (.SourceHasMore snapW1) := by
    rw [find_mrcud, hc]; rfl
  constructor <;>
    simp [replicate_dataset, repClassify, repAfterClassify, repPipeline, hm,
      dsT, baseOpts, envSendFails, Dataset.append_relative, Dataset.relative]

/-- Options requesting a snapshot named `today`. -/
def optsTakeSnap : ReplicateDatasetOpts :=
  { baseOpts with take_snap_now := some ("today".toList) }

/-- An environment whose two sides hold identical snapshot lists (UpToDate)
and whose snapshot creation succeeds. -/
def envUpToDate : RepEnv :=
  { takeSnapError := none
    srcSnaps := .ok [snapW1, snapW2]
    dstSnaps := .ok [snapW1, snapW2]
    spawnSendOk := true
    spawnRecvOk := true
    progressOk := some true
    sendExitOk := true
    recvExitOk := true }

/-- Claim C6, as stated, is false on the code: with `take_snap_now` set the
snapshot is attempted as the very first step — before the snapshot lists are
fetched and before the MRCUD classification — and an UpToDate classification
returns the "already up to date" success message even though `take_snap_now`
was set. -/
theorem c6_counterexample :
    optsTakeSnap.take_snap_now = some ("today".toList) ∧
    (replicate_dataset dsT dsT optsTakeSnap envUpToDate).2 =
      .ok (.alreadyUpToDate snapW2) ∧
    (replicate_dataset dsT dsT optsTakeSnap envUpToDate).1 =
      [.snapTaken ("today".toList), .gotSrcSnaps, .gotDstSnaps,
       .classified (.UpToDate snapW2)] := by
  have hc : comm [snapW1, snapW2] [snapW1, snapW2] =
      some ([(Comm.BOTH, snapW1), (Comm.BOTH, snapW2)], some 1) := by
    rw [comm_cons_eq [snapW2] [snapW2] (by decide),
        comm_cons_eq [] [] (by decide), comm_nil_left]
    rfl
  have hm : find_mrcud [snapW1, snapW2] [snapW1, snapW2] =
      some (.UpToDate snapW2) := by
    rw [find_mrcud, hc]; rfl
  refine ⟨rfl, ?_, ?_⟩ <;>
    simp [replicate_dataset, repClassify, repAfterClassify, repPipeline, hm,
      dsT, baseOpts, optsTakeSnap, envUpToDate,
      Dataset.append_relative, Dataset.relative]

/-- Claim C6 (amended): when `take_snap_now = Some(name)` the orchestrator
attempts the named snapshot on the source as its first observable step, in
particular before the MRCUD classification; and whenever the classification
is UpToDate the run returns the "already up to date" success message, whether
or not `take_snap_now` was set (the snapshot having already been taken at the
start). -/
lemma repPipeline_trace (trace : List RepEvent) (opts : ReplicateDatasetOpts)
    (env : RepEnv) : ∃ t, (repPipeline trace opts env).1 = trace ++ t := by
  unfold repPipeline
  split
  · exact ⟨[], by simp⟩
  · split
    · exact ⟨[.sendSpawned], rfl⟩
    · rcases env.progressOk with _ | b
      · exact ⟨[.sendSpawned, .recvSpawned], by simp⟩
      · cases b
        · exact ⟨[.sendSpawned, .recvSpawned, .progressDrawn], by simp⟩
        · cases env.sendExitOk <;> cases env.recvExitOk
          · exact ⟨[.sendSpawned, .recvSpawned, .progressDrawn,
              .sendWaited false, .recvWaited false,
              .warnedSendFailed, .warnedRecvFailed], by simp⟩
          · exact ⟨[.sendSpawned, .recvSpawned, .progressDrawn,
              .sendWaited false, .recvWaited true, .warnedSendFailed], by simp⟩
          · exact ⟨[.sendSpawned, .recvSpawned, .progressDrawn,
              .sendWaited true, .recvWaited false, .warnedRecvFailed], by simp⟩
          · exact ⟨[.sendSpawned, .recvSpawned, .progressDrawn,
              .sendWaited true, .recvWaited true], by simp⟩

lemma repAfterClassify_trace (trace : List RepEvent) (m : MRCUD)
    (opts : ReplicateDatasetOpts) (env : RepEnv) :
    ∃ t, (repAfterClassify trace m opts env).1 = trace ++ t := by
  cases m with
  | NoneInCommon => exact ⟨[], by simp [repAfterClassify]⟩
  | UpToDate s => exact ⟨[], by simp [repAfterClassify]⟩
  | DestinationHasMore s => exact ⟨[], by simp [repAfterClassify]⟩
  | Divergence s =>
    unfold repAfterClassify
    dsimp only
    split
    · exact ⟨[], by simp⟩
    · exact repPipeline_trace trace opts env
  | SourceHasMore s =>
    unfold repAfterClassify
    dsimp only
    exact repPipeline_trace trace opts env

lemma repClassify_trace (trace : List RepEvent) (src dst : Dataset)
    (opts : ReplicateDatasetOpts) (env : RepEnv) :
    ∃ t, (repClassify trace src dst opts env).1 = trace ++ t := by
  unfold repClassify
  rcases find_mrcud src.snaps dst.snaps with _ | m
  · exact ⟨[], by simp⟩
  · obtain ⟨t, ht⟩ :=
      repAfterClassify_trace (trace ++ [.classified m]) m opts env
    exact ⟨.classified m :: t, by rw [ht]; simp⟩

/-- Claim C6 (amended): when `take_snap_now = Some(name)` the orchestrator
attempts the named snapshot on the source as its first observable step, in
particular before the MRCUD classification; and whenever the classification
is UpToDate the run returns the "already up to date" success message, whether
or not `take_snap_now` was set (the snapshot having already been taken at the
start). -/
theorem c6_take_snap_first (src dst : Dataset) (opts : ReplicateDatasetOpts)
    (env : RepEnv) (name : List Char) (h : opts.take_snap_now = some name) :
    (replicate_dataset src dst opts env).1.head? = some (.snapTaken name) ∧
    (∀ sa sb mrc, env.takeSnapError = none → env.srcSnaps = .ok sa →
      env.dstSnaps = .ok sb → find_mrcud sa sb = some (.UpToDate mrc) →
      (replicate_dataset src dst opts env).2 = .ok (.alreadyUpToDate mrc)) := by
  constructor
  · unfold replicate_dataset
    rw [h]
    dsimp only
    split
    · rfl
    · rcases env.srcSnaps with e | sa
      · rfl
      · dsimp only
        rcases env.dstSnaps with e | sb
        · cases e with
          | NoDataset =>
            dsimp only
            split
            · rfl
            · obtain ⟨t, ht⟩ := repClassify_trace
                ([RepEvent.snapTaken name] ++ [RepEvent.gotSrcSnaps] ++
                  [RepEvent.gotDstSnaps]) _ _ opts env
              rw [ht]
              rfl
          | IllegalZFSName => rfl
          | NameAlreadyInUse => rfl
          | NoZFSRuntime => rfl
          | SubprocessError => rfl
          | ZFSCommandExecutionError => rfl
        · dsimp only
          obtain ⟨t, ht⟩ := repClassify_trace
            ([RepEvent.snapTaken name] ++ [RepEvent.gotSrcSnaps] ++
              [RepEvent.gotDstSnaps]) _ _ opts env
          rw [ht]
          rfl
  · intro sa sb mrc h1 h2 h3 h4
    unfold replicate_dataset
    rw [h, h1, h2, h3]
    dsimp only
    simp only [Option.isSome_some, Option.isSome_none, and_false, if_false]
    unfold repClassify
    rw [h4]
    rfl

/-- Witness for `c6_take_snap_first` on a concrete UpToDate run. -/
theorem c6_take_snap_first_witness :
    optsTakeSnap.take_snap_now = some ("today".toList) ∧
    (replicate_dataset dsT dsT optsTakeSnap envUpToDate).1.head? =
      some (.snapTaken ("today".toList)) ∧
    (replicate_dataset dsT dsT optsTakeSnap envUpToDate).2 =
      .ok (.alreadyUpToDate snapW2) := by
  have hm : find_mrcud [snapW1, snapW2] [snapW1, snapW2] =
      some (.UpToDate snapW2) := by
    have hc : comm [snapW1, snapW2] [snapW1, snapW2] =
        some ([(Comm.BOTH, snapW1), (Comm.BOTH, snapW2)], some 1) := by
      rw [comm_cons_eq [snapW2] [snapW2] (by decide),
          comm_cons_eq [] [] (by decide), comm_nil_left]
      rfl
    rw [find_mrcud, hc]; rfl
  exact ⟨rfl,
    (c6_take_snap_first dsT dsT optsTakeSnap envUpToDate ("today".toList) rfl).1,
    (c6_take_snap_first dsT dsT optsTakeSnap envUpToDate ("today".toList) rfl).2
      [snapW1, snapW2] [snapW1, snapW2] snapW2 rfl rfl rfl hm⟩

end ZfsRs
